import Mathlib

/-!
Shallow embedding of the `httpagain` package (graceful-restart HTTP server):
the single-use listener adapter (`singleListener`), the per-connection
timeout wrapper (`timeoutConn`), the bounded-poll accept loop
(`acceptLoop` with `wrapHandler`), and the shutdown coordination of
`ListenAndServe` (`timeoutWaitGroup`).

Concurrency conventions: `sync.Once` linearizes its callers, so the
behaviour of concurrent `Accept`/`Close` calls on a `singleListener`
is modelled as an arbitrary sequential interleaving (a list of
operations applied atomically, each carrying the value of the `once`
gate forward).  Go `time.Duration` is int64; durations are modelled as
`Int` (only sign comparisons matter here, no overflow is reachable).
Channel/timer behaviour of `select` is modelled by comparing drain
times with grace periods, with a `nil` timer channel (timeout ≤ 0)
never firing.
-/

namespace Httpagain

/-- Errors that appear in the embedded code paths.  `singleListen` is the
package-level sentinel `errSingleListen`; `closing` stands for the
"listener closed" condition recognised by `goagain.IsErrClosing`;
`timeoutErr` for a `net.OpError` whose `Timeout()` is true; `other`
for any remaining error value. -/
inductive NetError where
  | singleListen
  | closing
  | timeoutErr
  | other (msg : String)
  deriving DecidableEq, Repr

/-- A raw `net.Conn` as produced by `l.Accept()`; identity only, its I/O
behaviour is supplied separately by `ConnOps`. -/
structure RawConn where
  id : Nat
  deriving DecidableEq, Repr

/-- The I/O behaviour of an underlying `net.Conn` for one delegated call:
what `SetReadDeadline`/`SetWriteDeadline` return (`none` = success) and
what the underlying `Read`/`Write` return. -/
structure ConnOps where
  setReadDeadline : Int → Option NetError
  setWriteDeadline : Int → Option NetError
  readResult : Nat × Option NetError
  writeResult : Nat × Option NetError

/-- Observable calls made on the underlying connection by the wrapper. -/
inductive ConnEvent where
  | setReadDeadline (d : Int)
  | setWriteDeadline (d : Int)
  | read
  | write
  deriving DecidableEq, Repr

/-- Structure `timeoutConn` wraps a `net.Conn` and stores the two timeout durations
copied at construction time (fields `readTimeout`, `writeTimeout`). -/
structure timeoutConn where
  Conn : RawConn
  readTimeout : Int
  writeTimeout : Int
  deriving DecidableEq, Repr

/-- Method `timeoutConn.Read`: if `readTimeout > 0`, set a read deadline
`now + readTimeout` on the underlying connection; a failure to set it is
returned as `(0, err)` without reading; otherwise delegate to the
underlying `Read` unchanged.  Returns the I/O result together with the
trace of calls made on the underlying connection. -/
def timeoutConn.Read (c : timeoutConn) (ops : ConnOps) (now : Int) :
    (Nat × Option NetError) × List ConnEvent :=
  if c.readTimeout > 0 then
    match ops.setReadDeadline (now + c.readTimeout) with
    | some e => ((0, some e), [ConnEvent.setReadDeadline (now + c.readTimeout)])
    | none => (ops.readResult,
        [ConnEvent.setReadDeadline (now + c.readTimeout), ConnEvent.read])
  else
    (ops.readResult, [ConnEvent.read])

/-- Method `timeoutConn.Write`: symmetric to `Read` with `writeTimeout` and the
write deadline. -/
def timeoutConn.Write (c : timeoutConn) (ops : ConnOps) (now : Int) :
    (Nat × Option NetError) × List ConnEvent :=
  if c.writeTimeout > 0 then
    match ops.setWriteDeadline (now + c.writeTimeout) with
    | some e => ((0, some e), [ConnEvent.setWriteDeadline (now + c.writeTimeout)])
    | none => (ops.writeResult,
        [ConnEvent.setWriteDeadline (now + c.writeTimeout), ConnEvent.write])
  else
    (ops.writeResult, [ConnEvent.write])

/-- The package-level timeout variables read by `singleListener.Accept`
when it constructs the `timeoutConn` wrapper. -/
structure GlobalTimeouts where
  TCPReadTimeout : Int
  TCPWriteTimeout : Int
  deriving DecidableEq, Repr

/-- State of a `singleListener`: the stored pre-accepted connection
(`conn`, `none` models a nil `net.Conn`), the state of the `sync.Once`
gate (`onceDone`), and a ghost counter of how many times
`s.conn.Close()` has actually been invoked. -/
structure singleListener where
  conn : Option RawConn
  onceDone : Bool
  underlyingCloseCount : Nat
  deriving DecidableEq, Repr

/-- The literal `&singleListener{l: l, conn: c}` as built in the accept loop: a fresh
adapter holding one accepted connection, gate not yet fired. -/
def mkSingleListener (c : RawConn) : singleListener :=
  { conn := some c, onceDone := false, underlyingCloseCount := 0 }

/-- Result of one operation on a `singleListener`. -/
inductive SLResult where
  | accepted (tc : timeoutConn)
  | acceptErr (e : NetError)
  | closed (e : Option NetError)
  deriving DecidableEq, Repr

/-- Method `singleListener.Accept`: `c` is set to `s.conn` inside `once.Do`
(so only on the first firing of the gate); if `c != nil` the connection
is returned wrapped in a `timeoutConn` whose timeouts are copied from the
package-level variables at this moment; otherwise `errSingleListen`. -/
def singleListener.Accept (s : singleListener) (g : GlobalTimeouts) :
    SLResult × singleListener :=
  let c : Option RawConn := if s.onceDone then none else s.conn
  let s' := { s with onceDone := true }
  match c with
  | some conn =>
      (SLResult.accepted
        { Conn := conn, readTimeout := g.TCPReadTimeout,
          writeTimeout := g.TCPWriteTimeout }, s')
  | none => (SLResult.acceptErr NetError.singleListen, s')

/-- Method `singleListener.Close`: inside `once.Do`, `err = s.conn.Close()`
(whose return value is the parameter `closeRes`); if the gate already
fired, `err` keeps its zero value `nil`.  The ghost counter records the
actual underlying `Close` invocation. -/
def singleListener.Close (s : singleListener) (closeRes : Option NetError) :
    SLResult × singleListener :=
  if s.onceDone then
    (SLResult.closed none, s)
  else
    (SLResult.closed closeRes,
      { s with onceDone := true,
               underlyingCloseCount := s.underlyingCloseCount + 1 })

/-- One call in an interleaving of `Accept` and `Close` callers.  Each
`accept` carries the snapshot of the package-level timeout variables at
the moment of that call. -/
inductive SLOp where
  | accept (g : GlobalTimeouts)
  | close
  deriving DecidableEq, Repr

/-- Apply one operation. `closeRes` is what `s.conn.Close()` returns when
actually invoked. -/
def slStep (closeRes : Option NetError) (s : singleListener) (op : SLOp) :
    SLResult × singleListener :=
  match op with
  | SLOp.accept g => s.Accept g
  | SLOp.close => s.Close closeRes

/-- Run a sequential interleaving of `Accept`/`Close` calls, collecting
each caller's result. -/
def slRun (closeRes : Option NetError) (s : singleListener) :
    List SLOp → List SLResult × singleListener
  | [] => ([], s)
  | op :: rest =>
      let (r, s') := slStep closeRes s op
      let (rs, s'') := slRun closeRes s' rest
      (r :: rs, s'')

/-- What `l.Accept()` returns in one accept-loop iteration. -/
inductive AcceptOutcome where
  | ok (c : RawConn)
  | err (e : NetError)
  deriving DecidableEq, Repr

/-- Environment of one iteration of the accept loop: whether the `select`
observes the `Shutdown` channel closed, whether `SetDeadline` fails, what
`l.Accept()` returns, and what `srv.Serve(sl)` returns (`none` = nil). -/
structure LoopInput where
  shutdownClosed : Bool
  setDeadlineErr : Option NetError
  acceptOutcome : AcceptOutcome
  serveErr : Option NetError
  deriving Repr

/-- How the accept loop ends: returning normally (via the `return`
statements), aborting the process (`log.Fatalln`, or the panic of the
`err.(*net.OpError)` type assertion), or still running when the supplied
iteration inputs are exhausted. -/
inductive LoopOutcome where
  | stopped
  | fatal
  | running
  deriving DecidableEq, Repr

/-- Observable actions of the accept loop, in program order:
the `l.Accept()` call, the `requestWG.Add(1)` increment, and the
`srv.Serve(sl)` dispatch. -/
inductive LoopEvent where
  | acceptCall
  | wgAdd
  | serveCall
  deriving DecidableEq, Repr

/-- Decision of one loop iteration body: return with an outcome, or fall
through / `continue` to the next iteration. -/
inductive StepDecision where
  | ret (o : LoopOutcome)
  | cont
  deriving DecidableEq, Repr

/-- One iteration of the body of `acceptLoop`: check `Shutdown`, set the
accept deadline (fatal on failure), call `Accept` and classify its error
(`IsErrClosing` → clean return; `Timeout()` → continue; other → fatal),
and on success do `requestWG.Add(1)`, build the `singleListener` and call
`srv.Serve` (sentinel `errSingleListen` → continue; nil → fall through;
other → fatal).  Returns the decision, the request-counter delta of this
iteration, and the events it performed. -/
def acceptLoopStep (inp : LoopInput) : StepDecision × Int × List LoopEvent :=
  if inp.shutdownClosed then
    (StepDecision.ret LoopOutcome.stopped, 0, [])
  else
    match inp.setDeadlineErr with
    | some _ => (StepDecision.ret LoopOutcome.fatal, 0, [])
    | none =>
        match inp.acceptOutcome with
        | AcceptOutcome.err e =>
            if e = NetError.closing then
              (StepDecision.ret LoopOutcome.stopped, 0, [LoopEvent.acceptCall])
            else if e = NetError.timeoutErr then
              (StepDecision.cont, 0, [LoopEvent.acceptCall])
            else
              (StepDecision.ret LoopOutcome.fatal, 0, [LoopEvent.acceptCall])
        | AcceptOutcome.ok _ =>
            let evs := [LoopEvent.acceptCall, LoopEvent.wgAdd, LoopEvent.serveCall]
            match inp.serveErr with
            | some e =>
                if e = NetError.singleListen then (StepDecision.cont, 1, evs)
                else (StepDecision.ret LoopOutcome.fatal, 1, evs)
            | none => (StepDecision.cont, 1, evs)

/-- Function `acceptLoop` run over a finite list of per-iteration environments,
threading the `requestWG` counter and accumulating the event trace. -/
def acceptLoop (wg : Int) : List LoopInput → LoopOutcome × Int × List LoopEvent
  | [] => (LoopOutcome.running, wg, [])
  | inp :: rest =>
      match acceptLoopStep inp with
      | (StepDecision.ret o, d, evs) => (o, wg + d, evs)
      | (StepDecision.cont, d, evs) =>
          let (o, wg', evs') := acceptLoop (wg + d) rest
          (o, wg', evs ++ evs')

/-- Exit path of a request handler invocation. -/
inductive HandlerExit where
  | success
  | failure
  deriving DecidableEq, Repr

/-- The handler produced by `wrapHandler` decrements the wait group when
it returns — `defer wg.Done()` runs on every exit path of
`h.ServeHTTP`, success or failure. -/
def wrapHandlerRun (wg : Int) (e : HandlerExit) : Int :=
  match e with
  | HandlerExit.success => wg - 1
  | HandlerExit.failure => wg - 1

/-- Outcome of one `timeoutWaitGroup` call. -/
inductive WaitOutcome where
  | drained
  | timedOut
  deriving DecidableEq, Repr

/-- Function `timeoutWaitGroup`: spawn `wg.Wait()` signalling `doneWG`; if
`timeout > 0` arm `time.After(timeout)`, otherwise `timeoutChan` stays
nil and never fires; `select` on both.  `drainTime` is the instant at
which the pool's counter reaches zero (`none` = never).  Result `none`
models the call blocking forever (nil timer and a pool that never
drains); otherwise the outcome and the log messages emitted (the timeout
branch logs `timeoutMsg`, the drain branch logs nothing). -/
def timeoutWaitGroup (timeout : Int) (timeoutMsg : String)
    (drainTime : Option Int) : Option (WaitOutcome × List String) :=
  match drainTime with
  | some d =>
      if timeout > 0 ∧ timeout < d then some (WaitOutcome.timedOut, [timeoutMsg])
      else some (WaitOutcome.drained, [])
  | none =>
      if timeout > 0 then some (WaitOutcome.timedOut, [timeoutMsg])
      else none

/-- Log message passed for the request pool's grace-period wait. -/
def requestTimeoutMsg : String :=
  "some requests did not finish in allowed period, they will be killed"

/-- Log message passed for the background-goroutine pool's wait. -/
def goroutineTimeoutMsg : String :=
  "some goroutines did not finish in allowed period, they will be killed"

/-- The three pools waited on during shutdown. -/
inductive Pool where
  | acceptPool
  | requestPool
  | goroutinePool
  deriving DecidableEq, Repr

/-- Signal that ended `goagain.Wait`. -/
inductive Sig where
  | sigusr2
  | sigterm
  deriving DecidableEq, Repr

/-- Observable events of the shutdown tail of `ListenAndServe`. -/
inductive ShutdownEvent where
  | closeShutdown
  | waitCompleted (p : Pool) (o : WaitOutcome)
  | logMsg (s : String)
  | allDoneWaitReturns
  | reExec
  | processExit
  deriving DecidableEq, Repr

/-- The shutdown tail of `ListenAndServe` after `goagain.Wait` returns
`sig`: close `Shutdown`; run the three `timeoutWaitGroup` calls — the
accept pool with timeout 0, the request pool with `RequestGracePeriod`,
the goroutine pool with `GoroutineGracePeriod` — each counting down
`allDoneWG`; `allDoneWG.Wait()` returns once all three have; then re-exec
on SIGUSR2 or let the process exit.  `none` models `ListenAndServe`
never returning (some wait blocks forever).  There is no construct that
cancels outstanding work: a timed-out wait only logs. -/
def shutdownSequence (sig : Sig) (requestGracePeriod goroutineGracePeriod : Int)
    (acceptDrain requestDrain goroutineDrain : Option Int) :
    Option (List ShutdownEvent) :=
  match timeoutWaitGroup 0 "" acceptDrain,
      timeoutWaitGroup requestGracePeriod requestTimeoutMsg requestDrain,
      timeoutWaitGroup goroutineGracePeriod goroutineTimeoutMsg goroutineDrain with
  | some (oa, la), some (orq, lr), some (og, lg) =>
      some ([ShutdownEvent.closeShutdown]
        ++ [ShutdownEvent.waitCompleted Pool.acceptPool oa] ++ la.map ShutdownEvent.logMsg
        ++ [ShutdownEvent.waitCompleted Pool.requestPool orq] ++ lr.map ShutdownEvent.logMsg
        ++ [ShutdownEvent.waitCompleted Pool.goroutinePool og] ++ lg.map ShutdownEvent.logMsg
        ++ [ShutdownEvent.allDoneWaitReturns]
        ++ (if sig = Sig.sigusr2 then [ShutdownEvent.reExec]
            else [ShutdownEvent.processExit]))
  | _, _, _ => none

/-- Result every operation gets once the `sync.Once` gate has already
fired: `Accept` sees `c = nil` and returns the sentinel, `Close` returns
the zero value `nil`. -/
def exhaustedResult : SLOp → SLResult
  | SLOp.accept _ => SLResult.acceptErr NetError.singleListen
  | SLOp.close => SLResult.closed none

/-- Selects results that returned the connection. -/
def isAccepted : SLResult → Bool
  | SLResult.accepted _ => true
  | _ => false

/-- Number of operations in an interleaving that got the connection. -/
def countAccepted (rs : List SLResult) : Nat := (rs.filter isAccepted).length

theorem slStep_done (closeRes : Option NetError) (s : singleListener) (op : SLOp)
    (h : s.onceDone = true) :
    slStep closeRes s op = (exhaustedResult op, s) := by
  cases s with
  | mk conn od cnt =>
    cases op with
    | accept g =>
        simp only [Bool.true_eq] at h
        subst h
        simp [slStep, singleListener.Accept, exhaustedResult]
    | close =>
        simp only [Bool.true_eq] at h
        subst h
        simp [slStep, singleListener.Close, exhaustedResult]

theorem slRun_done (closeRes : Option NetError) (s : singleListener)
    (ops : List SLOp) (h : s.onceDone = true) :
    slRun closeRes s ops = (ops.map exhaustedResult, s) := by
  induction ops with
  | nil => simp [slRun]
  | cons op rest ih =>
      simp [slRun, slStep_done closeRes s op h, ih]

theorem countAccepted_exhausted (ops : List SLOp) :
    countAccepted (ops.map exhaustedResult) = 0 := by
  induction ops with
  | nil => simp [countAccepted]
  | cons op rest ih =>
      cases op <;>
        simpa [countAccepted, exhaustedResult, isAccepted] using ih

/-- C2: for a single-use listener adapter built around one pre-accepted
connection, the first `Accept` returns that connection wrapped in a
`timeoutConn`, and every subsequent `Accept` — any number of further
callers, linearized arbitrarily — returns the sentinel
`errSingleListen`, never the connection. -/
theorem singleListener_accept_first_then_exhausted (c : RawConn)
    (g : GlobalTimeouts) (gs : List GlobalTimeouts) (closeRes : Option NetError) :
    (slRun closeRes (mkSingleListener c) (SLOp.accept g :: gs.map SLOp.accept)).1 =
      SLResult.accepted
        { Conn := c, readTimeout := g.TCPReadTimeout,
          writeTimeout := g.TCPWriteTimeout } ::
      gs.map (fun _ => SLResult.acceptErr NetError.singleListen) := by
  have hstep : slStep closeRes (mkSingleListener c) (SLOp.accept g) =
      (SLResult.accepted
        { Conn := c, readTimeout := g.TCPReadTimeout,
          writeTimeout := g.TCPWriteTimeout },
       { conn := some c, onceDone := true, underlyingCloseCount := 0 }) := by
    simp [slStep, singleListener.Accept, mkSingleListener]
  have hdone := slRun_done closeRes
    { conn := some c, onceDone := true, underlyingCloseCount := 0 }
    (gs.map SLOp.accept) rfl
  simp [slRun, hstep, hdone, List.map_map, Function.comp, exhaustedResult]
  clear hstep hdone
  induction gs with
  | nil => rfl
  | cons x xs ih => simpa [exhaustedResult, List.replicate_succ] using ih

/-- C3: closing the adapter `n ≥ 1` times (e.g. two concurrent callers,
linearized) invokes the underlying connection's `Close` exactly once;
when the underlying close succeeds, every caller observes the same
success outcome `nil`. -/
theorem singleListener_close_idempotent (c : RawConn)
    (closeRes : Option NetError) (n : Nat) (hn : 1 ≤ n) :
    (slRun closeRes (mkSingleListener c)
        (List.replicate n SLOp.close)).2.underlyingCloseCount = 1
    ∧ (slRun none (mkSingleListener c) (List.replicate n SLOp.close)).1 =
        List.replicate n (SLResult.closed none) := by
  obtain ⟨m, rfl⟩ : ∃ m, n = m + 1 :=
    ⟨n - 1, (Nat.succ_pred_eq_of_pos hn).symm⟩
  have hrep : List.replicate (m + 1) SLOp.close =
      SLOp.close :: List.replicate m SLOp.close := rfl
  constructor
  · have hstep : slStep closeRes (mkSingleListener c) SLOp.close =
        (SLResult.closed closeRes,
         { conn := some c, onceDone := true, underlyingCloseCount := 1 }) := by
      simp [slStep, singleListener.Close, mkSingleListener]
    have hdone := slRun_done closeRes
      { conn := some c, onceDone := true, underlyingCloseCount := 1 }
      (List.replicate m SLOp.close) rfl
    simp [hrep, slRun, hstep, hdone]
  · have hstep : slStep none (mkSingleListener c) SLOp.close =
        (SLResult.closed none,
         { conn := some c, onceDone := true, underlyingCloseCount := 1 }) := by
      simp [slStep, singleListener.Close, mkSingleListener]
    have hdone := slRun_done none
      { conn := some c, onceDone := true, underlyingCloseCount := 1 }
      (List.replicate m SLOp.close) rfl
    simp [hrep, slRun, hstep, hdone, List.map_replicate, exhaustedResult,
      List.replicate_succ]

/-- Witness for `singleListener_close_idempotent` at a concrete input:
two close calls on a fresh adapter. -/
theorem singleListener_close_idempotent_witness :
    (slRun none (mkSingleListener ⟨0⟩)
        (List.replicate 2 SLOp.close)).2.underlyingCloseCount = 1
    ∧ (slRun none (mkSingleListener ⟨0⟩) (List.replicate 2 SLOp.close)).1 =
        List.replicate 2 (SLResult.closed none) :=
  singleListener_close_idempotent ⟨0⟩ none 2 (by decide)

/-- C9: in every nonempty interleaving of `Accept` and `Close` callers,
the one-shot gate fires for exactly the first call: the underlying
connection is either returned by an `Accept` or closed by a `Close`,
never both (the accepted-result count plus the underlying-close count is
exactly 1); and when the first call is a successful `Accept`, no later
`Close` touches the underlying connection and every later `Close`
returns `nil`. -/
theorem singleListener_gate_exactly_once (c : RawConn)
    (closeRes : Option NetError) (op : SLOp) (ops : List SLOp) :
    countAccepted (slRun closeRes (mkSingleListener c) (op :: ops)).1
        + (slRun closeRes (mkSingleListener c) (op :: ops)).2.underlyingCloseCount = 1
    ∧ (∀ g, op = SLOp.accept g →
        (slRun closeRes (mkSingleListener c) (op :: ops)).2.underlyingCloseCount = 0
        ∧ (slRun closeRes (mkSingleListener c) (op :: ops)).1 =
            SLResult.accepted
              { Conn := c, readTimeout := g.TCPReadTimeout,
                writeTimeout := g.TCPWriteTimeout } :: ops.map exhaustedResult) := by
  cases op with
  | accept g =>
      have hstep : slStep closeRes (mkSingleListener c) (SLOp.accept g) =
          (SLResult.accepted
            { Conn := c, readTimeout := g.TCPReadTimeout,
              writeTimeout := g.TCPWriteTimeout },
           { conn := some c, onceDone := true, underlyingCloseCount := 0 }) := by
        simp [slStep, singleListener.Accept, mkSingleListener]
      have hdone := slRun_done closeRes
        { conn := some c, onceDone := true, underlyingCloseCount := 0 } ops rfl
      constructor
      · simp [slRun, hstep, hdone, countAccepted, isAccepted,
          countAccepted_exhausted ops]
        have := countAccepted_exhausted ops
        simpa [countAccepted] using this
      · intro g' hg'
        have hg : g = g' := by
          cases hg'
          rfl
        subst hg
        constructor
        · simp [slRun, hstep, hdone]
        · simp [slRun, hstep, hdone]
  | close =>
      have hstep : slStep closeRes (mkSingleListener c) SLOp.close =
          (SLResult.closed closeRes,
           { conn := some c, onceDone := true, underlyingCloseCount := 1 }) := by
        simp [slStep, singleListener.Close, mkSingleListener]
      have hdone := slRun_done closeRes
        { conn := some c, onceDone := true, underlyingCloseCount := 1 } ops rfl
      constructor
      · simp [slRun, hstep, hdone, countAccepted, isAccepted]
        have := countAccepted_exhausted ops
        simpa [countAccepted] using this
      · intro g hg
        simp at hg

/-- Witness for `singleListener_gate_exactly_once`: an `Accept` followed
by a `Close`; the close does not touch the underlying connection and
returns `nil`. -/
theorem singleListener_gate_exactly_once_witness :
    (slRun none (mkSingleListener ⟨0⟩)
        (SLOp.accept ⟨30, 30⟩ :: [SLOp.close])).2.underlyingCloseCount = 0
    ∧ (slRun none (mkSingleListener ⟨0⟩)
        (SLOp.accept ⟨30, 30⟩ :: [SLOp.close])).1 =
        SLResult.accepted { Conn := ⟨0⟩, readTimeout := 30, writeTimeout := 30 } ::
          [SLOp.close].map exhaustedResult :=
  (singleListener_gate_exactly_once ⟨0⟩ none (SLOp.accept ⟨30, 30⟩) [SLOp.close]).2
    ⟨30, 30⟩ rfl

/-- C10: `Accept` on the single-use adapter returns a `timeoutConn`
wrapper around the stored raw connection (not the raw connection
itself), with `readTimeout`/`writeTimeout` copied from the package-level
variables as they stand at that `Accept` call; an adapter accepted under
a later snapshot `g2` gets `g2`'s values while the earlier wrapper keeps
`g1`'s. -/
theorem singleListener_accept_snapshot_timeouts (c1 c2 : RawConn)
    (g1 g2 : GlobalTimeouts) :
    ((mkSingleListener c1).Accept g1).1 =
      SLResult.accepted
        { Conn := c1, readTimeout := g1.TCPReadTimeout,
          writeTimeout := g1.TCPWriteTimeout }
    ∧ ((mkSingleListener c2).Accept g2).1 =
      SLResult.accepted
        { Conn := c2, readTimeout := g2.TCPReadTimeout,
          writeTimeout := g2.TCPWriteTimeout } := by
  constructor <;> simp [mkSingleListener, singleListener.Accept]

/-- C7: per-direction deadline behaviour of the timeout wrapper.  If
`readTimeout > 0`, a read deadline `now + readTimeout` is set before the
delegated read, and a deadline-setting failure is returned as the I/O
result `(0, err)` with no underlying read; if `readTimeout = 0`, no
deadline is set and the underlying read result is returned unchanged;
symmetrically for `Write` with `writeTimeout`. -/
theorem timeoutConn_deadline_spec (c : timeoutConn) (ops : ConnOps) (now : Int) :
    (0 < c.readTimeout →
      (∀ e, ops.setReadDeadline (now + c.readTimeout) = some e →
          c.Read ops now =
            ((0, some e), [ConnEvent.setReadDeadline (now + c.readTimeout)]))
      ∧ (ops.setReadDeadline (now + c.readTimeout) = none →
          c.Read ops now = (ops.readResult,
            [ConnEvent.setReadDeadline (now + c.readTimeout), ConnEvent.read])))
    ∧ (c.readTimeout = 0 → c.Read ops now = (ops.readResult, [ConnEvent.read]))
    ∧ (0 < c.writeTimeout →
      (∀ e, ops.setWriteDeadline (now + c.writeTimeout) = some e →
          c.Write ops now =
            ((0, some e), [ConnEvent.setWriteDeadline (now + c.writeTimeout)]))
      ∧ (ops.setWriteDeadline (now + c.writeTimeout) = none →
          c.Write ops now = (ops.writeResult,
            [ConnEvent.setWriteDeadline (now + c.writeTimeout), ConnEvent.write])))
    ∧ (c.writeTimeout = 0 → c.Write ops now = (ops.writeResult, [ConnEvent.write])) := by
  refine ⟨fun h => ⟨fun e he => ?_, fun hn => ?_⟩, fun h0 => ?_,
    fun h => ⟨fun e he => ?_, fun hn => ?_⟩, fun h0 => ?_⟩
  · simp [timeoutConn.Read, h, he]
  · simp [timeoutConn.Read, h, hn]
  · simp [timeoutConn.Read, h0]
  · simp [timeoutConn.Write, h, he]
  · simp [timeoutConn.Write, h, hn]
  · simp [timeoutConn.Write, h0]

/-- A concrete underlying connection used by the witness of
`timeoutConn_deadline_spec`: read-deadline setting succeeds, the read
yields 7 bytes. -/
def witnessOps : ConnOps :=
  { setReadDeadline := fun _ => none
  , setWriteDeadline := fun _ => some (NetError.other "bad fd")
  , readResult := (7, none)
  , writeResult := (5, none) }

/-- Witness for `timeoutConn_deadline_spec`: a wrapper with
`readTimeout = 50` and `writeTimeout = 0` sets the read deadline `150`
at `now = 100` and delegates the write with no deadline. -/
theorem timeoutConn_deadline_spec_witness :
    timeoutConn.Read { Conn := ⟨0⟩, readTimeout := 50, writeTimeout := 0 }
        witnessOps 100 =
      ((7, none), [ConnEvent.setReadDeadline 150, ConnEvent.read])
    ∧ timeoutConn.Write { Conn := ⟨0⟩, readTimeout := 50, writeTimeout := 0 }
        witnessOps 100 =
      ((5, none), [ConnEvent.write]) :=
  ⟨((timeoutConn_deadline_spec
      { Conn := ⟨0⟩, readTimeout := 50, writeTimeout := 0 } witnessOps 100).1
        (by decide)).2 rfl,
   (timeoutConn_deadline_spec
      { Conn := ⟨0⟩, readTimeout := 50, writeTimeout := 0 } witnessOps 100).2.2.2 rfl⟩

/-- C6: classification of errors by one accept-loop iteration (shutdown
not yet observed, deadline set successfully): an `Accept` failure whose
error is a timeout continues the loop; an `Accept` failure because the
listener was closed returns cleanly (`stopped`, no error surfaced); any
other `Accept` error aborts the process; `srv.Serve` returning the
sentinel `errSingleListen` is treated as normal completion and the loop
continues; any other error from `srv.Serve` aborts the process. -/
theorem acceptLoop_error_classification (inp : LoopInput)
    (hs : inp.shutdownClosed = false) (hd : inp.setDeadlineErr = none) :
    (inp.acceptOutcome = AcceptOutcome.err NetError.timeoutErr →
        acceptLoopStep inp = (StepDecision.cont, 0, [LoopEvent.acceptCall]))
    ∧ (inp.acceptOutcome = AcceptOutcome.err NetError.closing →
        acceptLoopStep inp =
          (StepDecision.ret LoopOutcome.stopped, 0, [LoopEvent.acceptCall]))
    ∧ (∀ e, e ≠ NetError.closing → e ≠ NetError.timeoutErr →
        inp.acceptOutcome = AcceptOutcome.err e →
        acceptLoopStep inp =
          (StepDecision.ret LoopOutcome.fatal, 0, [LoopEvent.acceptCall]))
    ∧ (∀ conn, inp.acceptOutcome = AcceptOutcome.ok conn →
        (inp.serveErr = some NetError.singleListen →
          acceptLoopStep inp = (StepDecision.cont, 1,
            [LoopEvent.acceptCall, LoopEvent.wgAdd, LoopEvent.serveCall]))
        ∧ (∀ e, inp.serveErr = some e → e ≠ NetError.singleListen →
          acceptLoopStep inp = (StepDecision.ret LoopOutcome.fatal, 1,
            [LoopEvent.acceptCall, LoopEvent.wgAdd, LoopEvent.serveCall]))) := by
  refine ⟨fun h => ?_, fun h => ?_, fun e he1 he2 h => ?_,
    fun conn h => ⟨fun hserve => ?_, fun e hserve hne => ?_⟩⟩
  · simp [acceptLoopStep, hs, hd, h]
  · simp [acceptLoopStep, hs, hd, h]
  · simp [acceptLoopStep, hs, hd, h, he1, he2]
  · simp [acceptLoopStep, hs, hd, h, hserve]
  · simp [acceptLoopStep, hs, hd, h, hserve, hne]

/-- Witness input for `acceptLoop_error_classification`: a timed-out
accept with no shutdown observed. -/
def witnessTimeoutInput : LoopInput :=
  { shutdownClosed := false, setDeadlineErr := none
  , acceptOutcome := AcceptOutcome.err NetError.timeoutErr
  , serveErr := none }

/-- Witness for `acceptLoop_error_classification`: at the concrete
timed-out-accept input, the iteration continues the loop. -/
theorem acceptLoop_error_classification_witness :
    acceptLoopStep witnessTimeoutInput =
      (StepDecision.cont, 0, [LoopEvent.acceptCall]) :=
  (acceptLoop_error_classification witnessTimeoutInput rfl rfl).1 rfl

theorem acceptLoop_cont_segment (wg : Int) (pre : List LoopInput)
    (suffix : List LoopInput)
    (hpre : ∀ p ∈ pre, (acceptLoopStep p).1 = StepDecision.cont) :
    acceptLoop wg (pre ++ suffix) =
      ((acceptLoop ((acceptLoop wg pre).2.1) suffix).1,
       (acceptLoop ((acceptLoop wg pre).2.1) suffix).2.1,
       (acceptLoop wg pre).2.2 ++ (acceptLoop ((acceptLoop wg pre).2.1) suffix).2.2) := by
  induction pre generalizing wg with
  | nil => simp [acceptLoop]
  | cons p ps ih =>
      have hp := hpre p (List.mem_cons_self _ _)
      have hps := fun q hq => hpre q (List.mem_cons_of_mem _ hq)
      rcases hstep : acceptLoopStep p with ⟨dec, d, evs⟩
      rw [hstep] at hp
      simp only at hp
      subst hp
      simp only [List.cons_append, acceptLoop, hstep]
      simp only [List.append_eq]
      rw [ih (wg + d) hps]
      simp [acceptLoop, hstep, List.append_assoc]

theorem acceptLoop_stops_on_shutdown_aux (wg : Int) (q : LoopInput)
    (qs : List LoopInput) (hq : q.shutdownClosed = true) :
    acceptLoop wg (q :: qs) = (LoopOutcome.stopped, wg, []) := by
  have hstep : acceptLoopStep q = (StepDecision.ret LoopOutcome.stopped, 0, []) := by
    simp [acceptLoopStep, hq]
  simp [acceptLoop, hstep]

theorem acceptLoop_no_stop_aux (inputs : List LoopInput) :
    ∀ wg : Int,
      (∀ p ∈ inputs, p.shutdownClosed = false
          ∧ p.acceptOutcome ≠ AcceptOutcome.err NetError.closing) →
      (acceptLoop wg inputs).1 ≠ LoopOutcome.stopped := by
  induction inputs with
  | nil =>
      intro wg _
      simp [acceptLoop]
  | cons inp rest ih =>
      intro wg h
      obtain ⟨hs, hc⟩ := h inp (List.mem_cons_self _ _)
      have hrest := fun p hp => h p (List.mem_cons_of_mem _ hp)
      rcases hsd : inp.setDeadlineErr with _ | e0
      · rcases hacc : inp.acceptOutcome with conn | e
        · rcases hserve : inp.serveErr with _ | e1
          · have hstep : acceptLoopStep inp = (StepDecision.cont, 1,
                [LoopEvent.acceptCall, LoopEvent.wgAdd, LoopEvent.serveCall]) := by
              simp [acceptLoopStep, hs, hsd, hacc, hserve]
            simp only [acceptLoop, hstep]
            exact ih (wg + 1) hrest
          · by_cases h1 : e1 = NetError.singleListen
            · subst h1
              have hstep : acceptLoopStep inp = (StepDecision.cont, 1,
                  [LoopEvent.acceptCall, LoopEvent.wgAdd, LoopEvent.serveCall]) := by
                simp [acceptLoopStep, hs, hsd, hacc, hserve]
              simp only [acceptLoop, hstep]
              exact ih (wg + 1) hrest
            · have hstep : acceptLoopStep inp = (StepDecision.ret LoopOutcome.fatal, 1,
                  [LoopEvent.acceptCall, LoopEvent.wgAdd, LoopEvent.serveCall]) := by
                simp [acceptLoopStep, hs, hsd, hacc, hserve, h1]
              simp [acceptLoop, hstep]
        · have he : e ≠ NetError.closing := by
            intro h'
            subst h'
            exact hc hacc
          by_cases ht : e = NetError.timeoutErr
          · subst ht
            have hstep : acceptLoopStep inp =
                (StepDecision.cont, 0, [LoopEvent.acceptCall]) := by
              simp [acceptLoopStep, hs, hsd, hacc]
            simp only [acceptLoop, hstep]
            exact ih (wg + 0) hrest
          · have hstep : acceptLoopStep inp =
                (StepDecision.ret LoopOutcome.fatal, 0, [LoopEvent.acceptCall]) := by
              simp [acceptLoopStep, hs, hsd, hacc, he, ht]
            simp [acceptLoop, hstep]
      · have hstep : acceptLoopStep inp =
            (StepDecision.ret LoopOutcome.fatal, 0, []) := by
          simp [acceptLoopStep, hs, hsd]
        simp [acceptLoop, hstep]

/-- C4: once the shutdown signal is observed closed, the accept loop
performs no further `Accept` calls after its next top-of-loop check and
returns (outcome `stopped`, event trace exactly that of the iterations
before the check); conversely, while the signal stays open and the
listener never reports closed, the loop never returns normally. -/
theorem acceptLoop_shutdown_behaviour :
    (∀ (wg : Int) (pre : List LoopInput) (q : LoopInput) (qs : List LoopInput),
        (∀ p ∈ pre, (acceptLoopStep p).1 = StepDecision.cont) →
        q.shutdownClosed = true →
        acceptLoop wg (pre ++ q :: qs) =
          (LoopOutcome.stopped, (acceptLoop wg pre).2.1, (acceptLoop wg pre).2.2))
    ∧ (∀ (wg : Int) (inputs : List LoopInput),
        (∀ p ∈ inputs, p.shutdownClosed = false
            ∧ p.acceptOutcome ≠ AcceptOutcome.err NetError.closing) →
        (acceptLoop wg inputs).1 ≠ LoopOutcome.stopped) := by
  constructor
  · intro wg pre q qs hpre hq
    rw [acceptLoop_cont_segment wg pre (q :: qs) hpre,
      acceptLoop_stops_on_shutdown_aux ((acceptLoop wg pre).2.1) q qs hq]
    simp
  · intro wg inputs h
    exact acceptLoop_no_stop_aux inputs wg h

/-- Witness iteration that accepts one connection and gets the sentinel
back from `srv.Serve`. -/
def witnessAcceptInput : LoopInput :=
  { shutdownClosed := false, setDeadlineErr := none
  , acceptOutcome := AcceptOutcome.ok ⟨1⟩
  , serveErr := some NetError.singleListen }

/-- Witness iteration at which the shutdown latch is observed closed. -/
def witnessShutdownInput : LoopInput :=
  { shutdownClosed := true, setDeadlineErr := none
  , acceptOutcome := AcceptOutcome.err NetError.timeoutErr
  , serveErr := none }

/-- Witness for `acceptLoop_shutdown_behaviour`: after one accepted
connection, the iteration observing the closed latch stops the loop with
no further accept events. -/
theorem acceptLoop_shutdown_behaviour_witness :
    acceptLoop 0 ([witnessAcceptInput] ++ witnessShutdownInput :: []) =
      (LoopOutcome.stopped, (acceptLoop 0 [witnessAcceptInput]).2.1,
        (acceptLoop 0 [witnessAcceptInput]).2.2) :=
  acceptLoop_shutdown_behaviour.1 0 [witnessAcceptInput] witnessShutdownInput []
    (by
      intro p hp
      rw [List.mem_singleton] at hp
      subst hp
      rfl)
    rfl

theorem acceptLoopStep_delta_count (inp : LoopInput) :
    (acceptLoopStep inp).2.1 =
      (((acceptLoopStep inp).2.2.count LoopEvent.wgAdd : Nat) : Int) := by
  by_cases hs : inp.shutdownClosed
  · simp [acceptLoopStep, hs]
  · rcases hsd : inp.setDeadlineErr with _ | e0
    · rcases hacc : inp.acceptOutcome with conn | e
      · rcases hserve : inp.serveErr with _ | e1
        · simp [acceptLoopStep, hs, hsd, hacc, hserve]
        · by_cases h1 : e1 = NetError.singleListen <;>
            simp [acceptLoopStep, hs, hsd, hacc, hserve, h1]
      · by_cases h1 : e = NetError.closing
        · simp [acceptLoopStep, hs, hsd, hacc, h1]
        · by_cases h2 : e = NetError.timeoutErr <;>
            simp [acceptLoopStep, hs, hsd, hacc, h1, h2]
    · simp [acceptLoopStep, hs, hsd]

theorem acceptLoop_wg_count (inputs : List LoopInput) :
    ∀ wg : Int,
      (acceptLoop wg inputs).2.1 =
        wg + (((acceptLoop wg inputs).2.2.count LoopEvent.wgAdd : Nat) : Int) := by
  induction inputs with
  | nil =>
      intro wg
      simp [acceptLoop]
  | cons inp rest ih =>
      intro wg
      have hd := acceptLoopStep_delta_count inp
      rcases hstep : acceptLoopStep inp with ⟨dec, d, evs⟩
      rw [hstep] at hd
      simp only at hd
      cases dec with
      | ret o =>
          simp [acceptLoop, hstep, hd]
      | cont =>
          simp only [acceptLoop, hstep]
          rw [ih (wg + d)]
          simp [List.count_append, hd]
          ring

theorem foldl_wrapHandlerRun (exits : List HandlerExit) :
    ∀ wg : Int, exits.foldl wrapHandlerRun wg = wg - exits.length := by
  induction exits with
  | nil =>
      intro wg
      simp
  | cons e rest ih =>
      intro wg
      have hone : wrapHandlerRun wg e = wg - 1 := by
        cases e <;> simp [wrapHandlerRun]
      simp only [List.foldl_cons, hone, ih, List.length_cons]
      push_cast
      ring

/-- C1: the request work counter is incremented exactly once, strictly
before the serve dispatch, for each accepted connection (second
conjunct: the iteration's event trace is
`[acceptCall, wgAdd, serveCall]` with counter delta 1), and the matching
decrement runs when the wrapped handler returns on every exit path; so
for any run of the loop accepting N connections, once every one of the
N handlers has completed — whatever mix of success and failure — the
counter is back to exactly 0. -/
theorem requestCounter_returns_to_zero (inputs : List LoopInput)
    (exits : List HandlerExit)
    (hlen : exits.length = (acceptLoop 0 inputs).2.2.count LoopEvent.wgAdd) :
    exits.foldl wrapHandlerRun (acceptLoop 0 inputs).2.1 = 0
    ∧ (∀ conn (inp : LoopInput), inp.shutdownClosed = false →
        inp.setDeadlineErr = none →
        inp.acceptOutcome = AcceptOutcome.ok conn →
        (acceptLoopStep inp).2.2 =
          [LoopEvent.acceptCall, LoopEvent.wgAdd, LoopEvent.serveCall]
        ∧ (acceptLoopStep inp).2.1 = 1) := by
  constructor
  · rw [foldl_wrapHandlerRun, acceptLoop_wg_count, hlen]
    ring
  · intro conn inp hs hd hacc
    rcases hserve : inp.serveErr with _ | e1
    · constructor <;> simp [acceptLoopStep, hs, hd, hacc, hserve]
    · by_cases h1 : e1 = NetError.singleListen <;>
        constructor <;> simp [acceptLoopStep, hs, hd, hacc, hserve, h1]

/-- Witness for `requestCounter_returns_to_zero`: one accepted
connection and one iteration that times out; after the single handler
completes (by failure), the counter is 0. -/
theorem requestCounter_returns_to_zero_witness :
    [HandlerExit.failure].foldl wrapHandlerRun
      (acceptLoop 0 [witnessAcceptInput, witnessTimeoutInput]).2.1 = 0 :=
  (requestCounter_returns_to_zero [witnessAcceptInput, witnessTimeoutInput]
    [HandlerExit.failure] (by decide)).1

theorem timeoutWaitGroup_zero (msg : String) (dt : Option Int) :
    timeoutWaitGroup 0 msg dt = dt.map fun _ => (WaitOutcome.drained, []) := by
  rcases dt with _ | d <;> simp [timeoutWaitGroup]

theorem timeoutWaitGroup_logs (t : Int) (msg : String) (dt : Option Int)
    (res : WaitOutcome × List String)
    (h : timeoutWaitGroup t msg dt = some res) :
    res.2 = if res.1 = WaitOutcome.timedOut then [msg] else [] := by
  rcases dt with _ | d
  · simp only [timeoutWaitGroup] at h
    split at h
    · cases h
      simp
    · cases h
  · simp only [timeoutWaitGroup] at h
    split at h
    · cases h
      simp
    · cases h
      simp

/-- C8: a pool configured with grace period 0 is waited on with a nil
timer channel: the wait never times out; it returns (drained, nothing
logged) exactly when the pool's counter reaches zero, whenever that is,
and blocks forever if it never does. -/
theorem timeoutWaitGroup_zero_waits_indefinitely (msg : String) :
    (∀ d : Int, timeoutWaitGroup 0 msg (some d) =
        some (WaitOutcome.drained, []))
    ∧ timeoutWaitGroup 0 msg none = none
    ∧ (∀ dt res, timeoutWaitGroup 0 msg dt = some res →
        res.1 ≠ WaitOutcome.timedOut) := by
  refine ⟨fun d => ?_, ?_, fun dt res h => ?_⟩
  · rw [timeoutWaitGroup_zero]
    rfl
  · rw [timeoutWaitGroup_zero]
    rfl
  · rw [timeoutWaitGroup_zero] at h
    rcases dt with _ | d
    · cases h
    · simp only [Option.map_some'] at h
      cases h
      simp

/-- Witness for `timeoutWaitGroup_zero_waits_indefinitely`: a request
pool with grace period 0 draining at time 86400 still ends by drain,
with nothing logged. -/
theorem timeoutWaitGroup_zero_waits_indefinitely_witness :
    timeoutWaitGroup 0 requestTimeoutMsg (some 86400) =
      some (WaitOutcome.drained, []) :=
  (timeoutWaitGroup_zero_waits_indefinitely requestTimeoutMsg).1 86400

/-- C5: after the shutdown signal, `ListenAndServe` returns — and only
then re-execs on SIGUSR2 or lets the process exit — strictly after all
three waits (accept loop, request pool, goroutine pool) have completed,
each by drain or by its own grace-period timeout: the sequence produces
a trace exactly when all three `timeoutWaitGroup` calls complete (first
conjunct), and every produced trace lists the three wait completions,
then the `allDoneWG.Wait` return, then the single post-drain action; a
grace period elapsing contributes only its log message — there is no
cancellation of remaining work anywhere in the trace. -/
theorem shutdown_returns_after_all_waits (sig : Sig) (rg gg : Int)
    (ad rd gd : Option Int) :
    ((shutdownSequence sig rg gg ad rd gd).isSome ↔
        (timeoutWaitGroup 0 "" ad).isSome
        ∧ (timeoutWaitGroup rg requestTimeoutMsg rd).isSome
        ∧ (timeoutWaitGroup gg goroutineTimeoutMsg gd).isSome)
    ∧ (∀ tr, shutdownSequence sig rg gg ad rd gd = some tr →
        ∃ orq og,
          timeoutWaitGroup rg requestTimeoutMsg rd =
            some (orq, if orq = WaitOutcome.timedOut then [requestTimeoutMsg] else [])
          ∧ timeoutWaitGroup gg goroutineTimeoutMsg gd =
            some (og, if og = WaitOutcome.timedOut then [goroutineTimeoutMsg] else [])
          ∧ tr = [ShutdownEvent.closeShutdown,
                  ShutdownEvent.waitCompleted Pool.acceptPool WaitOutcome.drained,
                  ShutdownEvent.waitCompleted Pool.requestPool orq]
              ++ (if orq = WaitOutcome.timedOut
                  then [ShutdownEvent.logMsg requestTimeoutMsg] else [])
              ++ [ShutdownEvent.waitCompleted Pool.goroutinePool og]
              ++ (if og = WaitOutcome.timedOut
                  then [ShutdownEvent.logMsg goroutineTimeoutMsg] else [])
              ++ [ShutdownEvent.allDoneWaitReturns]
              ++ (if sig = Sig.sigusr2 then [ShutdownEvent.reExec]
                  else [ShutdownEvent.processExit])) := by
  have hza : ∀ a : Int, timeoutWaitGroup 0 "" (some a) =
      some (WaitOutcome.drained, []) := by
    intro a
    rw [timeoutWaitGroup_zero]
    rfl
  rcases ad with _ | a
  · have h0 : timeoutWaitGroup 0 "" none = (none : Option (WaitOutcome × List String)) := by
      rw [timeoutWaitGroup_zero]
      rfl
    constructor
    · simp [shutdownSequence, h0]
    · intro tr htr
      exfalso
      rw [shutdownSequence, h0] at htr
      cases htr
  · rcases h1 : timeoutWaitGroup rg requestTimeoutMsg rd with _ | ⟨orq, lr⟩
    · constructor
      · simp [shutdownSequence, hza a, h1]
      · intro tr htr
        exfalso
        rw [shutdownSequence, hza a, h1] at htr
        cases htr
    · rcases h2 : timeoutWaitGroup gg goroutineTimeoutMsg gd with _ | ⟨og, lg⟩
      · constructor
        · simp [shutdownSequence, hza a, h1, h2]
        · intro tr htr
          exfalso
          rw [shutdownSequence, hza a, h1, h2] at htr
          cases htr
      · have hlr := timeoutWaitGroup_logs rg requestTimeoutMsg rd (orq, lr) h1
        have hlg := timeoutWaitGroup_logs gg goroutineTimeoutMsg gd (og, lg) h2
        simp only at hlr hlg
        constructor
        · simp [shutdownSequence, hza a, h1, h2]
        · intro tr htr
          refine ⟨orq, og, ?_, ?_, ?_⟩
          · rw [hlr]
          · rw [hlg]
          · rw [shutdownSequence, hza a, h1, h2] at htr
            have htr' := (Option.some_inj.mp htr).symm
            subst htr'
            rcases orq <;> rcases og <;> simp [hlr, hlg]

/-- Witness for `shutdown_returns_after_all_waits`: SIGUSR2 with
10-second grace periods, the accept loop stopping at 1s, requests
draining at 5s and goroutines only at 20s — the goroutine wait times
out, its message is logged, and re-exec still happens after all three
waits. -/
theorem shutdown_returns_after_all_waits_witness :
    ∃ orq og,
      timeoutWaitGroup 10 requestTimeoutMsg (some 5) =
        some (orq, if orq = WaitOutcome.timedOut then [requestTimeoutMsg] else [])
      ∧ timeoutWaitGroup 10 goroutineTimeoutMsg (some 20) =
        some (og, if og = WaitOutcome.timedOut then [goroutineTimeoutMsg] else [])
      ∧ ([ShutdownEvent.closeShutdown,
          ShutdownEvent.waitCompleted Pool.acceptPool WaitOutcome.drained,
          ShutdownEvent.waitCompleted Pool.requestPool WaitOutcome.drained,
          ShutdownEvent.waitCompleted Pool.goroutinePool WaitOutcome.timedOut,
          ShutdownEvent.logMsg goroutineTimeoutMsg,
          ShutdownEvent.allDoneWaitReturns,
          ShutdownEvent.reExec] : List ShutdownEvent) =
        [ShutdownEvent.closeShutdown,
         ShutdownEvent.waitCompleted Pool.acceptPool WaitOutcome.drained,
         ShutdownEvent.waitCompleted Pool.requestPool orq]
          ++ (if orq = WaitOutcome.timedOut
              then [ShutdownEvent.logMsg requestTimeoutMsg] else [])
          ++ [ShutdownEvent.waitCompleted Pool.goroutinePool og]
          ++ (if og = WaitOutcome.timedOut
              then [ShutdownEvent.logMsg goroutineTimeoutMsg] else [])
          ++ [ShutdownEvent.allDoneWaitReturns]
          ++ (if Sig.sigusr2 = Sig.sigusr2 then [ShutdownEvent.reExec]
              else [ShutdownEvent.processExit]) :=
  (shutdown_returns_after_all_waits Sig.sigusr2 10 10 (some 1) (some 5)
      (some 20)).2
    [ShutdownEvent.closeShutdown,
     ShutdownEvent.waitCompleted Pool.acceptPool WaitOutcome.drained,
     ShutdownEvent.waitCompleted Pool.requestPool WaitOutcome.drained,
     ShutdownEvent.waitCompleted Pool.goroutinePool WaitOutcome.timedOut,
     ShutdownEvent.logMsg goroutineTimeoutMsg,
     ShutdownEvent.allDoneWaitReturns,
     ShutdownEvent.reExec] (by decide)

end Httpagain
